import Mathlib

/-!
Shallow embedding of the `agent-usage-mcp` tool server
(`src/mcp/agent-usage-mcp/src/...` and the single-file variant
`src/mcp/agent-usage-mcp.js`), together with proofs about the
Antigravity quota aggregation, the `hours` validation, the JSON-RPC
dispatcher and the stdio transport loop.

JavaScript runtime values that flow through the untyped parts of the
code (upstream JSON payloads, tool arguments, message `id`s) are
modelled by the `JVal` type below; JavaScript property access,
`typeof`, `Object.entries`, `in` and `Number(...)` coercion are
modelled by the `js...` helpers.  A thrown JavaScript exception is
modelled as the `Except.error` branch carrying the error message.
Outbound HTTPS traffic is abstracted by environments (`AccountEnv`,
`ZaiEnv`, the `exec` argument of `handleMessage`): each opaque network
call is a field that either succeeds with a payload or fails with a
message, exactly the observable interface the source code consumes.
-/

set_option linter.unusedVariables false

/-- A JavaScript runtime value: `undefined`, `null`, booleans, numbers
(modelled as rationals), strings, arrays and plain objects (association
lists of fields, in insertion order). -/
inductive JVal where
  | undefined : JVal
  | null : JVal
  | bool : Bool → JVal
  | num : ℚ → JVal
  | str : String → JVal
  | arr : List JVal → JVal
  | obj : List (String × JVal) → JVal
deriving Repr

/-- Whether a value is exactly `undefined`. -/
def JVal.isUndefined : JVal → Bool
  | .undefined => true
  | _ => false

/-- Whether a value is exactly `null`. -/
def JVal.isNull : JVal → Bool
  | .null => true
  | _ => false

/-- The JavaScript `typeof` operator (note the notorious
`typeof null === "object"`). -/
def jsTypeof : JVal → String
  | .undefined => "undefined"
  | .null => "object"
  | .bool _ => "boolean"
  | .num _ => "number"
  | .str _ => "string"
  | .arr _ => "object"
  | .obj _ => "object"

/-- Property read on a value that is neither `null` nor `undefined`:
a present object field, otherwise `undefined`.  (Array index and
length properties are never read by the embedded code.) -/
def jprop (v : JVal) (k : String) : JVal :=
  match v with
  | .obj fields => ((fields.find? (fun kv => kv.1 = k)).map (·.2)).getD .undefined
  | _ => .undefined

/-- The JavaScript property access `v[k]`: throws a `TypeError` when
`v` is `null` or `undefined`, otherwise reads the property. -/
def jsGetProp (v : JVal) (k : String) : Except String JVal :=
  match v with
  | .undefined => .error ("TypeError: cannot read " ++ k ++ " of undefined")
  | .null => .error ("TypeError: cannot read " ++ k ++ " of null")
  | _ => .ok (jprop v k)

/-- The JavaScript `k in v` test, for the object shapes the embedded
code applies it to. -/
def jsHasKey (v : JVal) (k : String) : Bool :=
  match v with
  | .obj fields => fields.any (fun kv => kv.1 = k)
  | _ => false

/-- `Object.entries`: fields of an object in insertion order, index
entries (with string keys) for an array. -/
def jsEntries : JVal → List (String × JVal)
  | .obj fields => fields
  | .arr xs => xs.enum.map (fun p => (toString p.1, p.2))
  | _ => []

/-- `String.prototype.toLowerCase()`: per-character lowering (written
over the character list so that it evaluates by reduction). -/
def lowerCase (s : String) : String := ⟨s.data.map Char.toLower⟩

/-- Decimal digits to a natural number. -/
def digitsToNat (ds : List Char) : ℕ :=
  ds.foldl (fun n c => 10 * n + (c.toNat - 48)) 0

/-- Whitespace trim on both ends, over the character list. -/
def jsTrim (s : String) : List Char :=
  ((s.data.dropWhile Char.isWhitespace).reverse.dropWhile
    Char.isWhitespace).reverse

/-- An Antigravity account record as produced by `loadAccounts`
(`api/antigravity.ts`): `email` and `refreshToken` are required
strings in the accounts file schema, `projectId` and `enabled` are
optional. -/
structure AntigravityAccount where
  email : String
  refreshToken : String
  projectId : Option String
  enabled : Option Bool
deriving Repr, DecidableEq

/-- One parsed model-availability entry (`types/antigravity.ts`,
`AntigravityModel`). -/
structure AntigravityModel where
  model : String
  remaining_fraction : Option ℚ
  remaining_pct : Option ℤ
  reset_time : Option String
deriving Repr, DecidableEq

/-- One parsed Gemini CLI quota bucket (`types/antigravity.ts`,
`GeminiCliBucket`). -/
structure GeminiCliBucket where
  model : String
  token_type : Option String
  remaining_fraction : Option ℚ
  remaining_pct : Option ℤ
  remaining_amount : Option String
  reset_time : Option String
deriving Repr, DecidableEq

/-- The per-account result shape (`types/antigravity.ts`,
`AccountQuotaResult`). -/
structure AccountQuotaResult where
  account_index : ℕ
  email : String
  enabled : Bool
  projectId : Option String
  antigravity_models : List AntigravityModel
  gemini_cli_quota : List GeminiCliBucket
  errors : List String
deriving Repr, DecidableEq

/-- One cross-account summary record
(`getAntigravityQuotaAll`, `modelSummary` values). -/
structure SummaryEntry where
  best_remaining_pct : ℤ
  accounts_available : ℕ
deriving Repr, DecidableEq

/-- The all-accounts result shape (`types/antigravity.ts`,
`AllAccountsQuotaResult`); the summary `Record` is an association
list in key-insertion order. -/
structure AllAccountsQuotaResult where
  total_accounts : ℕ
  enabled_accounts : ℕ
  accounts : List AccountQuotaResult
  summary : List (String × SummaryEntry)
deriving Repr, DecidableEq

/-- Sequential effectful map over `Except`, the observable behaviour
of mapping a fallible operation over a list and `await Promise.all`-ing
it: the first thrown error rejects the combined result. -/
def exceptMapM (f : α → Except String β) : List α → Except String (List β)
  | [] => .ok []
  | a :: as => do
    let b ← f a
    let bs ← exceptMapM f as
    return b :: bs

/-- `createAntigravityModelEntry` (`api/antigravity.ts:194-218`).
The source reads `infoObj.quotaInfo` without a null check on `infoObj`
and guards `quotaInfo` only with `typeof quotaInfo !== "object"`,
which `null` passes; both dereferences of `null` throw. -/
def createAntigravityModelEntry (name : String) (info : JVal) :
    Except String AntigravityModel := do
  let quotaInfo ← jsGetProp info "quotaInfo"
  let entry : AntigravityModel :=
    { model := name
      remaining_fraction := none
      remaining_pct := none
      reset_time := none }
  if quotaInfo.isUndefined || jsTypeof quotaInfo != "object" then
    return entry
  let rf ← jsGetProp quotaInfo "remainingFraction"
  let entry1 :=
    match rf with
    | .num q =>
        { entry with
            remaining_fraction := some q
            remaining_pct := some (round (q * 100)) }
    | _ => entry
  let rt ← jsGetProp quotaInfo "resetTime"
  let entry2 :=
    match rt with
    | .str s => { entry1 with reset_time := some s }
    | _ => entry1
  return entry2

/-- `parseAntigravityModels` (`api/antigravity.ts:175-192`). -/
def parseAntigravityModels (data : JVal) :
    Except String (List AntigravityModel) :=
  if jsTypeof data != "object" || data.isNull || !jsHasKey data "models" then
    .ok []
  else
    let models := jprop data "models"
    if jsTypeof models != "object" || models.isNull then .ok []
    else exceptMapM (fun kv => createAntigravityModelEntry kv.1 kv.2)
      (jsEntries models)

/-- One iteration of the bucket loop of `parseGeminiCliQuota`
(`api/antigravity.ts:225-249`): entries that are not non-null objects
are skipped, every field defaults when absent or of the wrong type. -/
def parseGeminiCliBucket (b : JVal) : Option GeminiCliBucket :=
  if jsTypeof b == "object" && !b.isNull then
    some
      { model := match jprop b "modelId" with
          | .str s => s
          | _ => "unknown"
        token_type := match jprop b "tokenType" with
          | .str s => some s
          | _ => none
        remaining_fraction := match jprop b "remainingFraction" with
          | .num q => some q
          | _ => none
        remaining_pct := match jprop b "remainingFraction" with
          | .num q => some (round (q * 100))
          | _ => none
        remaining_amount := match jprop b "remainingAmount" with
          | .str s => some s
          | _ => none
        reset_time := match jprop b "resetTime" with
          | .str s => some s
          | _ => none }
  else none

/-- `parseGeminiCliQuota` (`api/antigravity.ts:220-254`). -/
def parseGeminiCliQuota (data : JVal) : List GeminiCliBucket :=
  if jsTypeof data == "object" && !data.isNull && jsHasKey data "buckets" then
    match jprop data "buckets" with
    | .arr bs => bs.filterMap parseGeminiCliBucket
    | _ => []
  else []

/-- The outcomes of the three outbound calls an account pipeline can
make: the OAuth token refresh and the two quota fetches.  Each either
resolves with a value or rejects with an error message — the exact
interface `getAntigravityAccountQuota` observes. -/
structure AccountEnv where
  refreshOutcome : Except String String
  agOutcome : Except String JVal
  gcOutcome : Except String JVal

/-- The `result` record `getAntigravityAccountQuota` initialises before
any check (`api/antigravity.ts:260-268`): `email || account_<index>`,
`enabled !== false`, `projectId || null`, empty lists. -/
def accountBase (account : AntigravityAccount) (index : ℕ) :
    AccountQuotaResult where
  account_index := index
  email := if account.email = "" then "account_" ++ toString index
    else account.email
  enabled := account.enabled != some false
  projectId := match account.projectId with
    | some p => if p = "" then none else some p
    | none => none
  antigravity_models := []
  gemini_cli_quota := []
  errors := []

/-- `getAntigravityAccountQuota` (`api/antigravity.ts:256-312`).
Strictly ordered: disabled check, refresh-token check, token refresh,
then both quota fetches settle (`Promise.allSettled`) and their
outcomes are folded in, antigravity models first.  The assignment
`result.antigravity_models = parseAntigravityModels(...)` is outside
any `try`, so a parse throw rejects the whole account promise. -/
def getAntigravityAccountQuota (env : AccountEnv)
    (account : AntigravityAccount) (index : ℕ) :
    Except String AccountQuotaResult :=
  let result := accountBase account index
  if result.enabled = false then
    .ok { result with errors := ["Account is disabled"] }
  else if account.refreshToken = "" then
    .ok { result with errors := ["No refresh token stored for this account"] }
  else
    match env.refreshOutcome with
    | .error msg =>
        .ok { result with errors := ["Token refresh failed: " ++ msg] }
    | .ok _accessToken =>
        match env.agOutcome, env.gcOutcome with
        | .error am, .error gm =>
            .ok { result with errors :=
              ["Antigravity models: " ++ am, "Gemini CLI quota: " ++ gm] }
        | .error am, .ok gv =>
            .ok { result with
              gemini_cli_quota := parseGeminiCliQuota gv
              errors := ["Antigravity models: " ++ am] }
        | .ok av, .error gm =>
            match parseAntigravityModels av with
            | .error e => .error e
            | .ok ms =>
                .ok { result with
                  antigravity_models := ms
                  errors := ["Gemini CLI quota: " ++ gm] }
        | .ok av, .ok gv =>
            match parseAntigravityModels av with
            | .error e => .error e
            | .ok ms =>
                .ok { result with
                  antigravity_models := ms
                  gemini_cli_quota := parseGeminiCliQuota gv }

/-- First-match association lookup, the access `record[key]` /
`key in record` discipline of a JS object used as a map. -/
def alookup (key : String) : List (String × α) → Option α
  | [] => none
  | kv :: rest => if kv.1 = key then some kv.2 else alookup key rest

/-- Map an entry bump over the summary record: raise the best
percentage and count the account, exactly the two mutations inside the
`if (entry !== undefined && m.remaining_pct !== null && m.remaining_pct > 0)`
body of `getAntigravityQuotaAll`. -/
def bumpEntry (e : SummaryEntry) (pct : Option ℤ) : SummaryEntry :=
  match pct with
  | some p =>
      if 0 < p then
        { best_remaining_pct := max e.best_remaining_pct p
          accounts_available := e.accounts_available + 1 }
      else e
  | none => e

/-- Update the record entry stored under `key` (the mutation of
`modelSummary[key]` in the source; keys are unique by construction). -/
def updateAt (s : List (String × SummaryEntry)) (key : String)
    (f : SummaryEntry → SummaryEntry) : List (String × SummaryEntry) :=
  s.map (fun kv => if kv.1 = key then (kv.1, f kv.2) else kv)

/-- One iteration of a summary loop of `getAntigravityQuotaAll`
(`api/antigravity.ts:333-370`): create the entry with the `-1` sentinel
if the key is new (JS object keys keep insertion order), then bump it
when the percentage is strictly positive. -/
def summaryAdd (s : List (String × SummaryEntry)) (key : String)
    (pct : Option ℤ) : List (String × SummaryEntry) :=
  let s' := if (alookup key s).isSome then s else s ++ [(key, ⟨-1, 0⟩)]
  updateAt s' key (fun e => bumpEntry e pct)

/-- The body of the per-account summary loop: disabled accounts are
skipped entirely; model entries are keyed by model name, Gemini CLI
buckets by `"gemini-cli:" + model`. -/
def accountSummaryStep (s : List (String × SummaryEntry))
    (acct : AccountQuotaResult) : List (String × SummaryEntry) :=
  if acct.enabled = false then s
  else
    let s1 := acct.antigravity_models.foldl
      (fun t m => summaryAdd t m.model m.remaining_pct) s
    acct.gemini_cli_quota.foldl
      (fun t b => summaryAdd t ("gemini-cli:" ++ b.model) b.remaining_pct) s1

/-- The full summary pass of `getAntigravityQuotaAll` over the
per-account results. -/
def buildSummary (results : List AccountQuotaResult) :
    List (String × SummaryEntry) :=
  results.foldl accountSummaryStep []

/-- `accounts.map((acc, i) => getAntigravityAccountQuota(acc, i))`
joined by `Promise.all`, starting at index `i`: the list of per-account
results, or the first per-account rejection. -/
def quotaAllResults (env : ℕ → AccountEnv) :
    ℕ → List AntigravityAccount → Except String (List AccountQuotaResult)
  | _, [] => .ok []
  | i, a :: as => do
    let r ← getAntigravityAccountQuota (env i) a i
    let rs ← quotaAllResults env (i + 1) as
    return r :: rs

/-- `getAntigravityQuotaAll` (`api/antigravity.ts:314-379`) over an
already-read accounts file content: `loadAccounts` throws
`No Antigravity accounts configured` on an empty list, then every
account is processed at its position and the summary is folded over
the results. -/
def getAntigravityQuotaAll (env : ℕ → AccountEnv)
    (accounts : List AntigravityAccount) :
    Except String AllAccountsQuotaResult :=
  if accounts.isEmpty then .error "No Antigravity accounts configured"
  else do
    let results ← quotaAllResults env 0 accounts
    return { total_accounts := accounts.length
             enabled_accounts :=
               (accounts.filter (fun a => a.enabled != some false)).length
             accounts := results
             summary := buildSummary results }

/-- A `string | number` identifier as accepted by
`getAntigravityQuotaSingle`. -/
inductive AccountIdentifier where
  | num : ℤ → AccountIdentifier
  | str : String → AccountIdentifier

/-- The `/^\d+$/` test (`NUMERIC_STRING_REGEX`). -/
def isDigitString (s : String) : Bool :=
  !s.data.isEmpty && s.data.all Char.isDigit

/-- Identifier resolution of `getAntigravityQuotaSingle`
(`api/antigravity.ts:383-404`): numbers are used directly, digit-only
strings are parsed, anything else is matched case-insensitively against
the (non-empty) account emails. -/
def resolveAccountIndex (accounts : List AntigravityAccount) :
    AccountIdentifier → Except String ℤ
  | .num n => .ok n
  | .str s =>
      if isDigitString s then .ok ((digitsToNat s.data : ℕ) : ℤ)
      else
        match accounts.findIdx?
          (fun a => !(a.email == "") && (lowerCase a.email == lowerCase s)) with
        | some i => .ok (i : ℤ)
        | none => .error ("Account not found: " ++ s)

/-- `getAntigravityQuotaSingle` (`api/antigravity.ts:383-418`):
load (empty store throws), resolve the identifier, bounds-check the
index, then run the same per-account pipeline at that index. -/
def getAntigravityQuotaSingle (env : ℕ → AccountEnv)
    (accounts : List AntigravityAccount) (identifier : AccountIdentifier) :
    Except String AccountQuotaResult :=
  if accounts.isEmpty then .error "No Antigravity accounts configured"
  else
    match resolveAccountIndex accounts identifier with
    | .error e => .error e
    | .ok index =>
        if index < 0 ∨ (accounts.length : ℤ) ≤ index then
          .error ("Account index " ++ toString index ++ " out of range (0-" ++
            toString ((accounts.length : ℤ) - 1) ++ ")")
        else
          match accounts.get? index.toNat with
          | none => .error ("Account at index " ++ toString index ++
              " not found")
          | some account =>
              getAntigravityAccountQuota (env index.toNat) account index.toNat

/-- Unsigned JavaScript decimal literal (`123`, `1.5`, `.5`, `7.`);
anything else is `NaN`. -/
def parseUnsignedDecimal (cs : List Char) : Option ℚ :=
  let (ip, rest) := cs.span Char.isDigit
  match rest with
  | [] => if ip.isEmpty then none else some (mkRat (digitsToNat ip) 1)
  | c :: fp =>
      if c == '.' && fp.all Char.isDigit && !(ip.isEmpty && fp.isEmpty) then
        some (mkRat (digitsToNat ip * 10 ^ fp.length + digitsToNat fp)
          (10 ^ fp.length))
      else none

/-- `Number(string)`: trimmed empty string is `0`, an optionally signed
decimal literal is its value, anything else is `NaN` (modelled as
`none`; hexadecimal and exponent forms are out of scope — like `NaN`
and infinities they are rejected by every consumer in this code). -/
def jsStringToNumber (s : String) : Option ℚ :=
  match jsTrim s with
  | [] => some 0
  | c :: rest =>
      if c == '-' then
        (parseUnsignedDecimal rest).map (fun q => mkRat (-q.num) q.den)
      else if c == '+' then parseUnsignedDecimal rest
      else parseUnsignedDecimal (c :: rest)

/-- The JavaScript `Number(...)` coercion on the value shapes that can
reach `validateHours`; `none` stands for `NaN`. -/
def jsToNumber : JVal → Option ℚ
  | .undefined => none
  | .null => some 0
  | .bool b => some (if b then 1 else 0)
  | .num q => some q
  | .str s => jsStringToNumber s
  | .arr [] => some 0
  | .arr [x] => jsToNumber x
  | .arr (_ :: _ :: _) => none
  | .obj _ => none

/-- JavaScript string coercion `` `${v}` `` as used in error messages. -/
def jsDisplay : JVal → String
  | .undefined => "undefined"
  | .null => "null"
  | .bool b => if b then "true" else "false"
  | .num q => if q.den = 1 then toString q.num else toString q
  | .str s => s
  | .arr _ => "<array>"
  | .obj _ => "[object Object]"

/-- `validateHours` of the modular server (`utils/validation.ts:103-114`):
absent defaults to `24`; a value whose `Number(...)` coercion is finite
and strictly positive is accepted; everything else throws a message
naming the offending value. -/
def validateHours (hours : JVal) : Except String ℚ :=
  if hours.isUndefined then .ok 24
  else
    match jsToNumber hours with
    | some q =>
        if q ≤ 0 then
          .error ("Invalid hours value: " ++ jsDisplay hours ++
            ". Must be a positive number.")
        else .ok q
    | none =>
        .error ("Invalid hours value: " ++ jsDisplay hours ++
          ". Must be a positive number.")

/-- `validateHours` of the single-file server
(`agent-usage-mcp.js:486-492`): never throws, any value that does not
coerce to a finite positive number silently becomes `24`. -/
def validateHoursJs (hours : JVal) : ℚ :=
  match jsToNumber hours with
  | some q => if 0 < q then q else 24
  | none => 24

/-- The usage-metering client as the Usage Aggregator sees it: one
opaque outbound call per facet. -/
structure ZaiEnv where
  fetchQuota : Except String JVal
  fetchModel : ℚ → Except String JVal
  fetchTool : ℚ → Except String JVal

/-- `getModelUsage` (`tools/zai.ts`): validate, then fetch. -/
def getModelUsage (env : ZaiEnv) (hours : JVal) : Except String JVal :=
  (validateHours hours).bind env.fetchModel

/-- `getToolUsage` (`tools/zai.ts`): validate, then fetch. -/
def getToolUsage (env : ZaiEnv) (hours : JVal) : Except String JVal :=
  (validateHours hours).bind env.fetchTool

/-- `getFullUsage` (`tools/zai.ts`): validate once, then join the three
facet calls all-or-nothing. -/
def getFullUsage (env : ZaiEnv) (hours : JVal) :
    Except String (JVal × JVal × JVal) :=
  (validateHours hours).bind fun h => do
    let q ← env.fetchQuota
    let m ← getModelUsage env (.num h)
    let t ← getToolUsage env (.num h)
    return (q, m, t)

/-- The `get_model_usage` tool-call path of the single-file server
(`agent-usage-mcp.js:635`): `getModelUsage(validateHours(args.hours))` —
the lenient validator, then the fetch. -/
def jsGetModelUsage (fetchModel : ℚ → Except String JVal) (hours : JVal) :
    Except String JVal :=
  fetchModel (validateHoursJs hours)

/-- A parsed JSON-RPC message (`types/mcp.ts`, `JsonRpcRequest`):
`id := JVal.undefined` models an absent `id` field. -/
structure JsonRpcRequest where
  id : JVal
  method : String
  params : JVal

/-- An output envelope: `makeResponse` / `makeError` of `server.ts`
(the JSON serialisation to one stdout line is abstracted away;
`response` carries the result value, with the pretty-printed
`tools/call` text content holding the tool result itself). -/
inductive RpcEnvelope where
  | response : JVal → JVal → RpcEnvelope
  | errorEnv : JVal → ℤ → String → RpcEnvelope
deriving Repr

/-- The `id` echoed by an envelope. -/
def envelopeId : RpcEnvelope → JVal
  | .response i _ => i
  | .errorEnv i _ _ => i

/-- The `initialize` result of `server.ts:38-48`. -/
def initializeResult : JVal :=
  .obj [("protocolVersion", .str "2024-11-05"),
        ("capabilities", .obj [("tools", .obj [])]),
        ("serverInfo", .obj [("name", .str "zai-usage"),
                             ("version", .str "2.0.0")])]

/-- The advertised tool names of `tools/registry.ts` (the descriptor
bodies are static data irrelevant to the dispatch discipline). -/
def toolNames : List String :=
  ["get_usage", "get_quota", "get_model_usage", "get_tool_usage",
   "get_antigravity_quota", "get_antigravity_account_quota"]

/-- The `tools/list` result of `server.ts:53-54`. -/
def toolsListResult : JVal :=
  .obj [("tools", .arr (toolNames.map .str))]

/-- The `tools/call` success envelope body (`server.ts:62-64`). -/
def wrapToolResult (v : JVal) : JVal :=
  .obj [("content", .arr [.obj [("type", .str "text"), ("text", v)]])]

/-- `handleMessage` (`server.ts:28-75`), parametric in the tool
executor (`executeTool` with whatever the tools do, an opaque fallible
call).  Only `msg.id === undefined` makes a notification; every other
message produces exactly one envelope carrying `msg.id`.  The `params`
property reads of the `tools/call` arm sit inside the dispatcher `try`,
so a `TypeError` on a primitive `params` becomes a `-32000` error. -/
def handleMessage (exec : JVal → JVal → Except String JVal)
    (msg : JsonRpcRequest) : Option RpcEnvelope :=
  if msg.id.isUndefined then none
  else some (
    match msg.method with
    | "initialize" => .response msg.id initializeResult
    | "ping" => .response msg.id (.obj [])
    | "tools/list" => .response msg.id toolsListResult
    | "tools/call" =>
        match jsGetProp msg.params "name" with
        | .error e => .errorEnv msg.id (-32000) e
        | .ok nameVal =>
            match jsGetProp msg.params "arguments" with
            | .error e => .errorEnv msg.id (-32000) e
            | .ok argsVal =>
                let args := if argsVal.isUndefined || argsVal.isNull
                  then JVal.obj [] else argsVal
                match exec nameVal args with
                | .ok result => .response msg.id (wrapToolResult result)
                | .error e => .errorEnv msg.id (-32000) e
    | m => .errorEnv msg.id (-32601) ("Method not found: " ++ m))

/-- The observable state of the transport loop (`index.ts`):
`pending` is `pendingRequests`, `closed` the `stdinClosed` flag,
`exited` whether `process.exit(0)` has run; `started`/`finished`
count dispatches entered and completed, `outputs` the stdout lines
written. -/
structure LoopState where
  pending : ℕ
  closed : Bool
  exited : Bool
  started : ℕ
  finished : ℕ
  outputs : ℕ
deriving Repr, DecidableEq

/-- `checkExit` (`index.ts:13-17`). -/
def checkExit (s : LoopState) : LoopState :=
  if s.closed ∧ s.pending = 0 then { s with exited := true } else s

/-- The events the event loop can deliver to the transport: a blank
input line, an unparseable line, a parsed line (dispatch begins), the
completion of an in-flight dispatch (its response, when not a
notification, is written before `pendingRequests--; checkExit()` runs),
and the close of stdin. -/
inductive LoopEvent where
  | blankLine : LoopEvent
  | badLine : LoopEvent
  | lineArrive : LoopEvent
  | complete : Bool → LoopEvent
  | closeInput : LoopEvent
deriving Repr, DecidableEq

/-- One transition of the transport loop (`index.ts:24-59`).  After
`process.exit(0)` nothing further happens; line events cannot occur
after stdin has closed; a completion can only occur while a dispatch
is in flight. -/
def loopStep (s : LoopState) : LoopEvent → LoopState
  | .blankLine => s
  | .badLine =>
      if s.exited || s.closed then s
      else { s with outputs := s.outputs + 1 }
  | .lineArrive =>
      if s.exited || s.closed then s
      else { s with pending := s.pending + 1, started := s.started + 1 }
  | .complete wrote =>
      if s.exited || s.pending = 0 then s
      else checkExit
        { s with
            pending := s.pending - 1
            finished := s.finished + 1
            outputs := s.outputs + (if wrote then 1 else 0) }
  | .closeInput =>
      if s.exited || s.closed then s
      else checkExit { s with closed := true }

/-- The initial transport state: nothing in flight, stdin open. -/
def initLoopState : LoopState :=
  { pending := 0, closed := false, exited := false,
    started := 0, finished := 0, outputs := 0 }

/-- Run the transport loop over a sequence of events. -/
def runLoop (events : List LoopEvent) : LoopState :=
  events.foldl loopStep initLoopState

/-- The percentage of an entry when it contributes to the summary:
present and strictly positive. -/
def posPct : Option ℤ → Option ℤ
  | some p => if 0 < p then some p else none
  | none => none

/-- All contributing percentages stored under `key` in a list of
(summary key, remaining percentage) items. -/
def pctsOf (key : String) (items : List (String × Option ℤ)) : List ℤ :=
  items.filterMap (fun kp => if kp.1 = key then posPct kp.2 else none)

/-- Fold a list of contributing percentages into a summary entry:
each raises the best percentage and counts one available account. -/
def applyPcts : SummaryEntry → List ℤ → SummaryEntry
  | e, [] => e
  | e, p :: ps =>
      applyPcts ⟨max e.best_remaining_pct p, e.accounts_available + 1⟩ ps

/-- Fold `summaryAdd` over a list of (summary key, percentage) items. -/
def addAll (s : List (String × SummaryEntry))
    (items : List (String × Option ℤ)) : List (String × SummaryEntry) :=
  items.foldl (fun t kp => summaryAdd t kp.1 kp.2) s

/-- The (summary key, percentage) items one account result feeds into
the summary pass: model entries under the model name, Gemini CLI
buckets under `"gemini-cli:" + model`. -/
def accountItems (acct : AccountQuotaResult) : List (String × Option ℤ) :=
  acct.antigravity_models.map (fun m => (m.model, m.remaining_pct)) ++
  acct.gemini_cli_quota.map
    (fun b => ("gemini-cli:" ++ b.model, b.remaining_pct))

/-- All (summary key, percentage) items of the enabled accounts, in
summary-pass order. -/
def summaryItems (results : List AccountQuotaResult) :
    List (String × Option ℤ) :=
  (results.filter (fun r => r.enabled)).flatMap accountItems

/-- Every summary key occurring in an entry of an enabled account. -/
def summaryKeys (results : List AccountQuotaResult) : List String :=
  (summaryItems results).map Prod.fst

/-- The strictly positive percentages recorded under `key` by entries
of enabled accounts. -/
def summaryPcts (results : List AccountQuotaResult) (key : String) :
    List ℤ :=
  pctsOf key (summaryItems results)

/-- A benign two-account environment: token refresh succeeds, the
model payload has one model without quota info, the quota payload has
no buckets. -/
def envW : ℕ → AccountEnv := fun _ =>
  { refreshOutcome := .ok "token"
    agOutcome := .ok (.obj [("models", .obj [("m", .obj [])])])
    gcOutcome := .ok (.obj []) }

/-- A two-account store: the first account enabled, the second
disabled. -/
def accountsW : List AntigravityAccount :=
  [⟨"a@x.com", "rt", none, none⟩, ⟨"b@x.com", "rt", none, some false⟩]

/-- The aggregate result `getAntigravityQuotaAll envW accountsW`
computes to. -/
def resultW : AllAccountsQuotaResult :=
  { total_accounts := 2
    enabled_accounts := 1
    accounts :=
      [{ account_index := 0, email := "a@x.com", enabled := true,
         projectId := none,
         antigravity_models := [⟨"m", none, none, none⟩],
         gemini_cli_quota := [], errors := [] },
       { account_index := 1, email := "b@x.com", enabled := false,
         projectId := none, antigravity_models := [],
         gemini_cli_quota := [], errors := ["Account is disabled"] }]
    summary := [("m", ⟨-1, 0⟩)] }

/-- A model-availability payload whose entry for `"m"` is `null` — a
valid JSON shape the upstream service could return. -/
def poisonPayload : JVal := .obj [("models", .obj [("m", .null)])]

/-- An environment in which account 0's model fetch succeeds with the
`null`-entry payload and everything else succeeds benignly. -/
def envPoison : ℕ → AccountEnv := fun i =>
  if i = 0 then
    { refreshOutcome := .ok "token", agOutcome := .ok poisonPayload,
      gcOutcome := .ok (.obj []) }
  else
    { refreshOutcome := .ok "token",
      agOutcome := .ok (.obj [("models", .obj [("m", .obj [])])]),
      gcOutcome := .ok (.obj []) }

/-- The `hours` validation error message naming the offending value. -/
def invalidHoursMsg (hours : JVal) : String :=
  "Invalid hours value: " ++ jsDisplay hours ++ ". Must be a positive number."

/-- The transport-loop invariant: every started dispatch is either
finished or in flight, and the process has exited exactly when stdin
has closed with nothing in flight. -/
def loopInv (s : LoopState) : Prop :=
  s.started = s.finished + s.pending ∧
  s.exited = (s.closed && decide (s.pending = 0))

/-! ### General lemmas about the embedding -/

@[simp] theorem JVal.isUndefined_eq_true_iff (v : JVal) :
    v.isUndefined = true ↔ v = .undefined := by
  cases v <;> simp [JVal.isUndefined]

@[simp] theorem JVal.isNull_eq_true_iff (v : JVal) :
    v.isNull = true ↔ v = .null := by
  cases v <;> simp [JVal.isNull]

/-- Sanity check: a bucket with a missing fraction parses with `null`
fraction, percentage and amount. -/
theorem parseGeminiCliQuota_defaults :
    parseGeminiCliQuota (.obj [("buckets", .arr
      [.obj [("modelId", .str "g"), ("resetTime", .str "t")],
       .num 3])]) =
      [{ model := "g", token_type := none, remaining_fraction := none,
         remaining_pct := none, remaining_amount := none,
         reset_time := some "t" }] := by decide

/-- Sanity check: a fractional `remainingFraction` yields the rounded
percentage. -/
theorem parseGeminiCliBucket_fraction :
    parseGeminiCliBucket
      (.obj [("modelId", .str "g"), ("remainingFraction", .num (2/5))]) =
      some { model := "g", token_type := none,
             remaining_fraction := some (2/5), remaining_pct := some 40,
             remaining_amount := none, reset_time := none } := by
  have h40 : round ((2/5 : ℚ) * 100) = (40 : ℤ) := by norm_num [round_eq]
  have h : parseGeminiCliBucket
      (.obj [("modelId", .str "g"), ("remainingFraction", .num (2/5))]) =
      some { model := "g", token_type := none,
             remaining_fraction := some (2/5),
             remaining_pct := some (round ((2/5 : ℚ) * 100)),
             remaining_amount := none, reset_time := none } := rfl
  rw [h, h40]

/-! ### The summary fold -/

theorem alookup_updateAt (s : List (String × SummaryEntry)) (k key : String)
    (f : SummaryEntry → SummaryEntry) :
    alookup key (updateAt s k f) =
      if key = k then (alookup k s).map f else alookup key s := by
  induction s with
  | nil => by_cases h : key = k <;> simp [updateAt, alookup, h]
  | cons kv rest ih =>
      obtain ⟨k1, v1⟩ := kv
      by_cases h1 : k1 = k
      · subst h1
        by_cases h2 : key = k1
        · subst h2
          simp [updateAt, alookup, ih]
        · simp only [updateAt] at ih
          simp [updateAt, alookup, h2, Ne.symm h2, ih]
      · by_cases h2 : key = k1
        · subst h2
          simp [updateAt, alookup, h1, Ne.symm h1, ih]
        · simp only [updateAt] at ih
          simp [updateAt, alookup, h1, h2, Ne.symm h2, ih]

theorem alookup_append (s t : List (String × SummaryEntry)) (key : String) :
    alookup key (s ++ t) = ((alookup key s).or (alookup key t)) := by
  induction s with
  | nil => simp [alookup]
  | cons kv rest ih =>
      by_cases h : kv.1 = key <;> simp [alookup, h, ih]

theorem alookup_summaryAdd (s : List (String × SummaryEntry))
    (k : String) (p : Option ℤ) (key : String) :
    alookup key (summaryAdd s k p) =
      if key = k then some (bumpEntry ((alookup k s).getD ⟨-1, 0⟩) p)
      else alookup key s := by
  unfold summaryAdd
  rcases h : alookup k s with _ | e
  · simp only [h, Option.isSome_none, Bool.false_eq_true, if_false,
      alookup_updateAt, alookup_append]
    by_cases h2 : key = k
    · subst h2; simp [alookup, h]
    · simp [alookup, h2, Ne.symm h2]
  · simp only [h, Option.isSome_some, if_true, alookup_updateAt]
    by_cases h2 : key = k
    · subst h2; simp [h]
    · simp [h2]

theorem applyPcts_bump (e : SummaryEntry) (p : Option ℤ) (ps : List ℤ) :
    applyPcts (bumpEntry e p) ps = applyPcts e ((posPct p).toList ++ ps) := by
  rcases p with _ | p
  · simp [bumpEntry, posPct]
  · by_cases h : 0 < p <;> simp [bumpEntry, posPct, h, applyPcts]

theorem applyPcts_spec (ps : List ℤ) (e : SummaryEntry) :
    applyPcts e ps =
      ⟨ps.foldl max e.best_remaining_pct,
       e.accounts_available + ps.length⟩ := by
  induction ps generalizing e with
  | nil => simp [applyPcts]
  | cons p ps ih =>
      simp [applyPcts, ih]
      omega

theorem pctsOf_cons (key : String) (kp : String × Option ℤ)
    (items : List (String × Option ℤ)) :
    pctsOf key (kp :: items) =
      (if kp.1 = key then (posPct kp.2).toList else []) ++ pctsOf key items := by
  by_cases h : kp.1 = key <;>
    simp [pctsOf, List.filterMap_cons, h] <;>
    rcases posPct kp.2 with _ | p <;> simp

theorem alookup_addAll (items : List (String × Option ℤ))
    (s : List (String × SummaryEntry)) (key : String) :
    alookup key (addAll s items) =
      if (alookup key s).isSome ∨ key ∈ items.map Prod.fst then
        some (applyPcts ((alookup key s).getD ⟨-1, 0⟩) (pctsOf key items))
      else none := by
  induction items generalizing s with
  | nil =>
      rcases h : alookup key s with _ | e <;> simp [addAll, pctsOf, h, applyPcts]
  | cons kp rest ih =>
      obtain ⟨k, p⟩ := kp
      have hstep : addAll s ((k, p) :: rest) = addAll (summaryAdd s k p) rest := rfl
      rw [hstep, ih, alookup_summaryAdd, pctsOf_cons]
      by_cases h2 : key = k
      · subst h2
        simp only [if_pos rfl, Option.isSome_some, true_or, if_true,
          List.map_cons, List.mem_cons, Option.getD_some]
        rw [applyPcts_bump]
        simp
      · rw [if_neg h2]
        have hmem : (key ∈ k :: List.map Prod.fst rest) ↔
            (key ∈ List.map Prod.fst rest) := by simp [h2]
        simp only [List.map_cons, hmem, if_neg (Ne.symm h2), List.nil_append]

theorem addAll_append (s : List (String × SummaryEntry))
    (a b : List (String × Option ℤ)) :
    addAll s (a ++ b) = addAll (addAll s a) b := by
  simp [addAll, List.foldl_append]

theorem accountSummaryStep_eq (s : List (String × SummaryEntry))
    (acct : AccountQuotaResult) :
    accountSummaryStep s acct =
      if acct.enabled = false then s else addAll s (accountItems acct) := by
  by_cases h : acct.enabled = false <;>
    simp [accountSummaryStep, accountItems, addAll, h,
      List.foldl_append, List.foldl_map]

theorem buildSummary_foldl (results : List AccountQuotaResult)
    (s : List (String × SummaryEntry)) :
    results.foldl accountSummaryStep s = addAll s (summaryItems results) := by
  induction results generalizing s with
  | nil => simp [summaryItems, addAll]
  | cons r rest ih =>
      simp only [List.foldl_cons, ih, accountSummaryStep_eq]
      by_cases h : r.enabled = false
      · have : summaryItems (r :: rest) = summaryItems rest := by
          simp [summaryItems, List.filter_cons, h]
        rw [this, if_pos h]
      · have hb : r.enabled = true := by
          cases he : r.enabled <;> simp_all
        have : summaryItems (r :: rest) =
            accountItems r ++ summaryItems rest := by
          simp [summaryItems, List.filter_cons, hb]
        rw [this, if_neg h, addAll_append]

theorem alookup_buildSummary (results : List AccountQuotaResult)
    (key : String) :
    alookup key (buildSummary results) =
      if key ∈ summaryKeys results then
        some ⟨(summaryPcts results key).foldl max (-1),
              (summaryPcts results key).length⟩
      else none := by
  rw [buildSummary, buildSummary_foldl, alookup_addAll]
  simp only [alookup, Option.isSome_none, Bool.false_eq_true, false_or,
    Option.getD_none]
  simp [summaryKeys, summaryPcts, applyPcts_spec]

/-- C1: For every getAll aggregation over the loaded account list, the
cross-account summary maps each key (a model name, or `"gemini-cli:" +
model` for the second quota source) to an entry whose
`best_remaining_pct` starts at `-1` and is raised to the maximum
`remaining_pct` over all entries of enabled accounts with
`remaining_pct > 0` for that key, and whose `accounts_available` equals
the count of such entries; entries belonging to a disabled account
never contribute to any summary entry. -/
theorem getAll_summary_characterization
    (env : ℕ → AccountEnv) (accounts : List AntigravityAccount)
    (r : AllAccountsQuotaResult) (key : String)
    (h : getAntigravityQuotaAll env accounts = .ok r) :
    alookup key r.summary =
      if key ∈ summaryKeys r.accounts then
        some ⟨(summaryPcts r.accounts key).foldl max (-1),
              (summaryPcts r.accounts key).length⟩
      else none := by
  unfold getAntigravityQuotaAll at h
  by_cases he : accounts.isEmpty
  · rw [if_pos he] at h
    cases h
  · rw [if_neg he] at h
    rcases hq : quotaAllResults env 0 accounts with e | results <;>
      rw [hq] at h
    · cases h
    · have hr : r.accounts = results ∧ r.summary = buildSummary results := by
        cases h
        exact ⟨rfl, rfl⟩
      rw [hr.2, hr.1, alookup_buildSummary]

/-- Witness for C1: on the concrete store `accountsW` the summary maps
the key `"m"` (contributed only without a positive percentage) to the
`-1` sentinel with zero available accounts. -/
theorem getAll_summary_characterization_witness :
    getAntigravityQuotaAll envW accountsW = .ok resultW ∧
    alookup "m" resultW.summary = some ⟨-1, 0⟩ := by
  refine ⟨rfl, ?_⟩
  have h := getAll_summary_characterization envW accountsW resultW "m" rfl
  rw [h]
  decide

/-! ### The per-account pipeline -/

theorem getAccountQuota_ok_base (env : AccountEnv)
    (account : AntigravityAccount) (index : ℕ) (r : AccountQuotaResult)
    (h : getAntigravityAccountQuota env account index = .ok r) :
    r.account_index = index ∧
    r.email = (if account.email = "" then "account_" ++ toString index
      else account.email) ∧
    r.enabled = (account.enabled != some false) ∧
    r.projectId = (match account.projectId with
      | some p => if p = "" then none else some p
      | none => none) := by
  simp only [getAntigravityAccountQuota] at h
  repeat' split at h
  all_goals try (injection h with h; subst h)
  all_goals
    first
      | injection h
      | exact ⟨rfl, rfl, rfl, rfl⟩

theorem quotaAllResults_ok (env : ℕ → AccountEnv)
    (accounts : List AntigravityAccount) :
    ∀ (i : ℕ) (rs : List AccountQuotaResult),
      quotaAllResults env i accounts = .ok rs →
      rs.length = accounts.length ∧
      ∀ j (hj : j < accounts.length) (hj' : j < rs.length),
        getAntigravityAccountQuota (env (i + j)) (accounts.get ⟨j, hj⟩)
          (i + j) = .ok (rs.get ⟨j, hj'⟩) := by
  induction accounts with
  | nil =>
      intro i rs h
      cases h
      exact ⟨rfl, fun j hj _ => absurd hj (by simp)⟩
  | cons a as ih =>
      intro i rs h
      simp only [quotaAllResults] at h
      rcases hr : getAntigravityAccountQuota (env i) a i with e | r <;>
        rw [hr] at h
      · cases h
      · rcases hrest : quotaAllResults env (i + 1) as with e | rs' <;>
          rw [hrest] at h
        · cases h
        · injection h with h
          subst h
          obtain ⟨hlen, hidx⟩ := ih (i + 1) rs' hrest
          refine ⟨by simp [hlen], ?_⟩
          intro j hj hj'
          cases j with
          | zero => simpa using hr
          | succ j =>
              have hj2 : j < as.length := by simpa using Nat.lt_of_succ_lt_succ hj
              have hj2' : j < rs'.length := by simpa using Nat.lt_of_succ_lt_succ hj'
              have hstep := hidx j hj2 hj2'
              have harith : i + 1 + j = i + (j + 1) := by omega
              rw [harith] at hstep
              simpa using hstep

/-- C10: For every successful getAll call over a loaded account list of
length N: `total_accounts` equals N; `enabled_accounts` equals the
number of loaded accounts whose enabled field is not `false`; the
accounts array has exactly N entries in load order with each entry's
`account_index` equal to its position; and an account whose email is
empty is reported with the synthetic email `account_<index>` (and a
missing `projectId` is reported as `null`). -/
theorem getAll_shape (env : ℕ → AccountEnv)
    (accounts : List AntigravityAccount) (r : AllAccountsQuotaResult)
    (h : getAntigravityQuotaAll env accounts = .ok r) :
    r.total_accounts = accounts.length ∧
    r.enabled_accounts =
      (accounts.filter (fun a => a.enabled != some false)).length ∧
    r.accounts.length = accounts.length ∧
    (∀ j (hj : j < accounts.length) (hj' : j < r.accounts.length),
      (r.accounts.get ⟨j, hj'⟩).account_index = j ∧
      ((accounts.get ⟨j, hj⟩).email = "" →
        (r.accounts.get ⟨j, hj'⟩).email = "account_" ++ toString j) ∧
      ((accounts.get ⟨j, hj⟩).projectId = none →
        (r.accounts.get ⟨j, hj'⟩).projectId = none)) := by
  unfold getAntigravityQuotaAll at h
  by_cases he : accounts.isEmpty
  · rw [if_pos he] at h
    cases h
  · rw [if_neg he] at h
    rcases hq : quotaAllResults env 0 accounts with e | results <;>
      rw [hq] at h
    · cases h
    · have hr : r.total_accounts = accounts.length ∧
          r.enabled_accounts =
            (accounts.filter (fun a => a.enabled != some false)).length ∧
          r.accounts = results := by
        cases h
        exact ⟨rfl, rfl, rfl⟩
      obtain ⟨hlen, hidx⟩ := quotaAllResults_ok env accounts 0 results hq
      refine ⟨hr.1, hr.2.1, by rw [hr.2.2, hlen], ?_⟩
      intro j hj hj'
      have hj2 : j < results.length := by rw [hr.2.2] at hj'; exact hj'
      have hpipe := hidx j hj hj2
      simp only [Nat.zero_add] at hpipe
      obtain ⟨hi, hm, _, hp⟩ :=
        getAccountQuota_ok_base _ _ _ _ hpipe
      have hget : r.accounts.get ⟨j, hj'⟩ = results.get ⟨j, hj2⟩ :=
        List.get_of_eq hr.2.2 ⟨j, hj'⟩
      refine ⟨by rw [hget, hi], ?_, ?_⟩
      · intro hempty
        rw [hget, hm, if_pos hempty]
      · intro hnone
        rw [hget, hp, hnone]

/-- Witness for C10 on the concrete two-account store `accountsW`. -/
theorem getAll_shape_witness :
    getAntigravityQuotaAll envW accountsW = .ok resultW ∧
    resultW.total_accounts = 2 ∧ resultW.enabled_accounts = 1 ∧
    resultW.accounts.length = 2 ∧
    (resultW.accounts.get ⟨1, by decide⟩).account_index = 1 := by
  have h := getAll_shape envW accountsW resultW rfl
  exact ⟨rfl, h.1, h.2.1, h.2.2.1,
    (h.2.2.2 1 (by decide) (by decide)).1⟩

/-- C4 (code bug): `parseAntigravityModels` throws a `TypeError` on a
`null` model entry (`infoObj.quotaInfo` dereferences `null`) and on a
`null` `quotaInfo` (which passes the `typeof quotaInfo !== "object"`
guard because `typeof null === "object"`), instead of defaulting the
affected fields; by contrast `parseGeminiCliQuota` skips a `null`
bucket entry exactly as the claim describes. -/
theorem parseAntigravityModels_throws_on_null :
    parseAntigravityModels (.obj [("models", .obj [("m", .null)])]) =
      .error "TypeError: cannot read quotaInfo of null" ∧
    parseAntigravityModels (.obj [("models", .obj
      [("m", .obj [("quotaInfo", .null)])])]) =
      .error "TypeError: cannot read remainingFraction of null" ∧
    parseGeminiCliQuota (.obj [("buckets", .arr [.null])]) = [] :=
  ⟨rfl, rfl, rfl⟩

/-- C2 (code bug): with two healthy accounts, a `null` model entry in
account 0's successfully fetched payload throws inside the parse step,
rejects that account's promise, and `Promise.all` rejects the whole
`getAll` call — account 1's result is dropped even though its own
pipeline succeeds in isolation. -/
theorem getAll_drops_account_on_parse_throw :
    getAntigravityQuotaAll envPoison
      [⟨"a@x.com", "rt", none, none⟩, ⟨"b@x.com", "rt", none, none⟩] =
      .error "TypeError: cannot read quotaInfo of null" ∧
    getAntigravityAccountQuota (envPoison 1) ⟨"b@x.com", "rt", none, none⟩ 1 =
      .ok { account_index := 1, email := "b@x.com", enabled := true,
            projectId := none,
            antigravity_models := [⟨"m", none, none, none⟩],
            gemini_cli_quota := [], errors := [] } :=
  ⟨rfl, rfl⟩

/-- C3 (code bug): with a token obtained, the Gemini CLI fetch failing
and the model fetch succeeding with a `null`-entry payload, the result
the claim requires (the single error `"Gemini CLI quota: boom"` with
the model list populated) is not produced: the parse of the successful
model fetch throws first and the whole account result is a rejection. -/
theorem accountQuota_parse_throw_preempts_gc_error :
    getAntigravityAccountQuota
      { refreshOutcome := .ok "token", agOutcome := .ok poisonPayload,
        gcOutcome := .error "boom" }
      ⟨"a@x.com", "rt", none, none⟩ 0 =
      .error "TypeError: cannot read quotaInfo of null" := rfl

theorem accountBase_enabled_false_iff (account : AntigravityAccount)
    (index : ℕ) :
    (accountBase account index).enabled = false ↔
      account.enabled = some false := by
  rcases account with ⟨e, rt, p, en⟩
  rcases en with _ | b
  · simp [accountBase]
  · cases b <;> simp [accountBase]

/-- Pipeline short-circuit: a disabled account yields the single error
`"Account is disabled"` with empty lists, for every environment — no
network outcome can influence the result. -/
theorem accountQuota_disabled (env : AccountEnv)
    (account : AntigravityAccount) (index : ℕ)
    (h : account.enabled = some false) :
    getAntigravityAccountQuota env account index =
      .ok { accountBase account index with
              errors := ["Account is disabled"] } := by
  have he : (accountBase account index).enabled = false :=
    (accountBase_enabled_false_iff account index).mpr h
  simp [getAntigravityAccountQuota, he]

/-- Pipeline short-circuit: an enabled account with an empty refresh
token yields the single explanatory error, for every environment. -/
theorem accountQuota_missing_token (env : AccountEnv)
    (account : AntigravityAccount) (index : ℕ)
    (hen : account.enabled ≠ some false) (h : account.refreshToken = "") :
    getAntigravityAccountQuota env account index =
      .ok { accountBase account index with
              errors := ["No refresh token stored for this account"] } := by
  have he : ¬(accountBase account index).enabled = false := fun hc =>
    hen ((accountBase_enabled_false_iff account index).mp hc)
  simp [getAntigravityAccountQuota, he, h]

/-- Pipeline short-circuit: when the token refresh rejects, the result
records `"Token refresh failed: <message>"` and is independent of the
two quota-fetch outcomes — they are never consulted. -/
theorem accountQuota_refresh_failed (ag gc : Except String JVal)
    (msg : String) (account : AntigravityAccount) (index : ℕ)
    (hen : account.enabled ≠ some false) (hrt : account.refreshToken ≠ "") :
    getAntigravityAccountQuota ⟨.error msg, ag, gc⟩ account index =
      .ok { accountBase account index with
              errors := ["Token refresh failed: " ++ msg] } := by
  have he : ¬(accountBase account index).enabled = false := fun hc =>
    hen ((accountBase_enabled_false_iff account index).mp hc)
  simp [getAntigravityAccountQuota, he, hrt]

/-- With a token obtained: a failed model fetch is recorded as its own
error while a successful quota fetch still populates the bucket list,
and two failed fetches are recorded as two errors, model error first. -/
theorem accountQuota_fetch_failures (tok am gm : String) (gv : JVal)
    (account : AntigravityAccount) (index : ℕ)
    (hen : account.enabled ≠ some false) (hrt : account.refreshToken ≠ "") :
    getAntigravityAccountQuota ⟨.ok tok, .error am, .ok gv⟩ account index =
      .ok { accountBase account index with
              gemini_cli_quota := parseGeminiCliQuota gv
              errors := ["Antigravity models: " ++ am] } ∧
    getAntigravityAccountQuota ⟨.ok tok, .error am, .error gm⟩ account index =
      .ok { accountBase account index with
              errors := ["Antigravity models: " ++ am,
                         "Gemini CLI quota: " ++ gm] } := by
  have he : ¬(accountBase account index).enabled = false := fun hc =>
    hen ((accountBase_enabled_false_iff account index).mp hc)
  constructor <;> simp [getAntigravityAccountQuota, he, hrt]

/-- C5: For every identifier passed to getOne: a number is used
directly as the index; a string consisting only of digits is parsed as
the index (so `getOne("0")` and `getOne(0)` resolve to the same
account); any other string is matched case-insensitively against
account emails, failing with an account-not-found error when no email
matches; and a resolved index outside `[0, length)` fails with an
index-out-of-range error. -/
theorem getSingle_identifier_resolution
    (env : ℕ → AccountEnv) (accounts : List AntigravityAccount) :
    (∀ s : String, isDigitString s = true →
      getAntigravityQuotaSingle env accounts (.str s) =
        getAntigravityQuotaSingle env accounts
          (.num ((digitsToNat s.data : ℕ) : ℤ))) ∧
    (∀ s : String, accounts ≠ [] → isDigitString s = false →
      accounts.findIdx? (fun a =>
        !(a.email == "") && (lowerCase a.email == lowerCase s)) = none →
      getAntigravityQuotaSingle env accounts (.str s) =
        .error ("Account not found: " ++ s)) ∧
    (∀ n : ℤ, accounts ≠ [] → (n < 0 ∨ (accounts.length : ℤ) ≤ n) →
      getAntigravityQuotaSingle env accounts (.num n) =
        .error ("Account index " ++ toString n ++ " out of range (0-" ++
          toString ((accounts.length : ℤ) - 1) ++ ")")) ∧
    (∀ (n : ℕ) (hn : n < accounts.length),
      getAntigravityQuotaSingle env accounts (.num (n : ℤ)) =
        getAntigravityAccountQuota (env n) (accounts.get ⟨n, hn⟩) n) := by
  refine ⟨?_, ?_, ?_, ?_⟩
  · intro s hs
    simp [getAntigravityQuotaSingle, resolveAccountIndex, hs]
  · intro s hne hs hfind
    have he : accounts.isEmpty = false := by
      simpa [List.isEmpty_iff] using hne
    simp [getAntigravityQuotaSingle, resolveAccountIndex, hs, hfind, he]
  · intro n hne hrange
    have he : accounts.isEmpty = false := by
      simpa [List.isEmpty_iff] using hne
    simp only [getAntigravityQuotaSingle, resolveAccountIndex, he,
      Bool.false_eq_true, if_false]
    rw [if_pos hrange]
  · intro n hn
    have hne : accounts ≠ [] := by
      intro hc
      rw [hc] at hn
      exact absurd hn (by simp)
    have he : accounts.isEmpty = false := by
      simpa [List.isEmpty_iff] using hne
    have hrange : ¬((n : ℤ) < 0 ∨ (accounts.length : ℤ) ≤ (n : ℤ)) := by
      push_neg
      constructor
      · exact Int.ofNat_nonneg n
      · exact_mod_cast hn
    simp only [getAntigravityQuotaSingle, resolveAccountIndex, he,
      Bool.false_eq_true, if_false]
    rw [if_neg hrange]
    have hto : ((n : ℤ)).toNat = n := Int.toNat_natCast n
    rw [hto, List.get?_eq_get hn]

/-- Witness for C5 on the two-account store `accountsW`. -/
theorem getSingle_identifier_resolution_witness :
    (getAntigravityQuotaSingle envW accountsW (.str "0") =
      getAntigravityQuotaSingle envW accountsW (.num 0)) ∧
    (getAntigravityQuotaSingle envW accountsW (.str "nope@x.com") =
      .error "Account not found: nope@x.com") ∧
    (getAntigravityQuotaSingle envW accountsW (.num 999) =
      .error "Account index 999 out of range (0-1)") := by
  have h := getSingle_identifier_resolution envW accountsW
  exact ⟨h.1 "0" rfl,
    h.2.1 "nope@x.com" (by decide) (by decide) (by decide),
    h.2.2.1 999 (by decide) (by decide)⟩

/-- C6 counterexample: in the single-file server, `get_model_usage`
with `hours = -5` does not fail — the lenient `validateHours` silently
falls back to `24` and the fetch proceeds. -/
theorem validateHoursJs_no_failure :
    jsGetModelUsage (fun q => .ok (.num q)) (.num (-5)) = .ok (.num 24) ∧
    validateHoursJs (.num 0) = 24 ∧ validateHoursJs (.str "abc") = 24 :=
  ⟨rfl, rfl, rfl⟩

/-- C6 (amended): in the modular typed server, `hours` is validated
before any fetch: absent defaults to `24`; a value coercing to a finite
number strictly greater than zero is accepted; every other value fails
all three hour-taking tools with the message naming the offending
value, for every environment (so before any network call).  In the
single-file server, `validateHours` instead silently coerces every
invalid value to `24` and never fails. -/
theorem validateHours_discipline (env : ZaiEnv) (hours : JVal) :
    (hours = .undefined →
      getModelUsage env hours = env.fetchModel 24 ∧
      getToolUsage env hours = env.fetchTool 24) ∧
    (∀ q : ℚ, hours ≠ .undefined → jsToNumber hours = some q → 0 < q →
      getModelUsage env hours = env.fetchModel q ∧
      getToolUsage env hours = env.fetchTool q) ∧
    (hours ≠ .undefined →
      (jsToNumber hours = none ∨
        (∃ q : ℚ, jsToNumber hours = some q ∧ q ≤ 0)) →
      getModelUsage env hours = .error (invalidHoursMsg hours) ∧
      getToolUsage env hours = .error (invalidHoursMsg hours) ∧
      getFullUsage env hours = .error (invalidHoursMsg hours)) ∧
    (∀ (fetch : ℚ → Except String JVal) (q : ℚ),
      jsToNumber hours = some q → 0 < q →
      jsGetModelUsage fetch hours = fetch q) ∧
    (∀ fetch : ℚ → Except String JVal,
      (jsToNumber hours = none ∨
        (∃ q : ℚ, jsToNumber hours = some q ∧ q ≤ 0)) →
      jsGetModelUsage fetch hours = fetch 24) := by
  refine ⟨?_, ?_, ?_, ?_, ?_⟩
  · intro h
    subst h
    constructor <;> rfl
  · intro q hu hq hpos
    have hnd : hours.isUndefined = false := by
      cases hhu : hours.isUndefined
      · rfl
      · exact absurd ((JVal.isUndefined_eq_true_iff hours).mp hhu) hu
    have hle : ¬q ≤ 0 := not_le.mpr hpos
    constructor <;>
      simp [getModelUsage, getToolUsage, validateHours, hnd, hq, hle,
        Except.bind]
  · intro hu hbad
    have hnd : hours.isUndefined = false := by
      cases hhu : hours.isUndefined
      · rfl
      · exact absurd ((JVal.isUndefined_eq_true_iff hours).mp hhu) hu
    have hval : validateHours hours = .error (invalidHoursMsg hours) := by
      rcases hbad with hnone | ⟨q, hq, hle⟩
      · simp [validateHours, hnd, hnone, invalidHoursMsg]
      · simp [validateHours, hnd, hq, hle, invalidHoursMsg]
    refine ⟨?_, ?_, ?_⟩ <;>
      simp [getModelUsage, getToolUsage, getFullUsage, hval, Except.bind]
  · intro fetch q hq hpos
    simp [jsGetModelUsage, validateHoursJs, hq, hpos]
  · intro fetch hbad
    rcases hbad with hnone | ⟨q, hq, hle⟩
    · simp [jsGetModelUsage, validateHoursJs, hnone]
    · simp [jsGetModelUsage, validateHoursJs, hq, not_lt.mpr hle]

/-- Witness for C6 (amended) at a concrete environment: absent hours
default to 24, `"12"` is accepted as 12, `0` fails with the message
naming it, and the single-file validator turns `0` into `24`. -/
theorem validateHours_discipline_witness :
    getModelUsage ⟨.ok .null, fun q => .ok (.num q), fun q => .ok (.num q)⟩
      .undefined = .ok (.num 24) ∧
    getModelUsage ⟨.ok .null, fun q => .ok (.num q), fun q => .ok (.num q)⟩
      (.str "12") = .ok (.num 12) ∧
    getModelUsage ⟨.ok .null, fun q => .ok (.num q), fun q => .ok (.num q)⟩
      (.num 0) = .error "Invalid hours value: 0. Must be a positive number." ∧
    jsGetModelUsage (fun q => .ok (.num q)) (.num 0) = .ok (.num 24) := by
  refine ⟨?_, ?_, ?_, ?_⟩
  · exact (validateHours_discipline _ .undefined).1 rfl |>.1
  · have h := (validateHours_discipline
      ⟨.ok .null, fun q => .ok (.num q), fun q => .ok (.num q)⟩
      (.str "12")).2.1 (mkRat 12 1) (fun h => JVal.noConfusion h) rfl
      (by decide)
    exact h.1
  · have h := (validateHours_discipline
      ⟨.ok .null, fun q => .ok (.num q), fun q => .ok (.num q)⟩
      (.num 0)).2.2.1 (fun h => JVal.noConfusion h) (.inr ⟨0, rfl, by decide⟩)
    exact h.1
  · exact (validateHours_discipline
      ⟨.ok .null, fun q => .ok (.num q), fun q => .ok (.num q)⟩
      (.num 0)).2.2.2.2 (fun q => .ok (.num q))
      (.inr ⟨0, rfl, by decide⟩)

theorem exceptMapM_ok_mem {α β : Type} (f : α → Except String β)
    (l : List α) (ys : List β) (h : exceptMapM f l = .ok ys) :
    ∀ y ∈ ys, ∃ x ∈ l, f x = .ok y := by
  induction l generalizing ys with
  | nil =>
      cases h
      intro y hy
      cases hy
  | cons a as ih =>
      simp only [exceptMapM] at h
      rcases ha : f a with e | b <;> rw [ha] at h
      · cases h
      · rcases has : exceptMapM f as with e | bs <;> rw [has] at h
        · cases h
        · injection h with h
          subst h
          intro y hy
          rcases List.mem_cons.mp hy with hy | hy
          · exact ⟨a, List.mem_cons_self a as, by rw [ha, hy]⟩
          · obtain ⟨x, hx, hfx⟩ := ih bs has y hy
            exact ⟨x, List.mem_cons_of_mem a hx, hfx⟩

theorem createAntigravityModelEntry_mirror (name : String) (info : JVal)
    (m : AntigravityModel)
    (h : createAntigravityModelEntry name info = .ok m) :
    m.remaining_pct = m.remaining_fraction.map (fun q => round (q * 100)) := by
  simp only [createAntigravityModelEntry, bind, Except.bind] at h
  repeat' split at h
  all_goals try (injection h with h; subst h)
  all_goals first
    | injection h
    | rfl

theorem parseGeminiCliBucket_mirror (v : JVal) (b : GeminiCliBucket)
    (h : parseGeminiCliBucket v = some b) :
    b.remaining_pct = b.remaining_fraction.map (fun q => round (q * 100)) := by
  simp only [parseGeminiCliBucket] at h
  split at h
  · injection h with h
    subst h
    rcases jprop v "remainingFraction" with _ | _ | _ | q | _ | _ | _ <;> rfl
  · cases h

/-- C7: For every model entry and every quota-bucket entry produced by
the payload parsers, `remaining_pct` equals
`round(remaining_fraction * 100)` whenever the source fraction is a
number, and `remaining_pct` is `null` exactly when `remaining_fraction`
is `null` — the two fields are mirrored, one is never populated without
the other. -/
theorem parsers_pct_mirrors_fraction (data : JVal) :
    (∀ ms, parseAntigravityModels data = .ok ms → ∀ m ∈ ms,
      m.remaining_pct =
        m.remaining_fraction.map (fun q => round (q * 100))) ∧
    (∀ b ∈ parseGeminiCliQuota data,
      b.remaining_pct =
        b.remaining_fraction.map (fun q => round (q * 100))) := by
  constructor
  · intro ms hms m hm
    simp only [parseAntigravityModels] at hms
    split at hms
    · cases hms
      cases hm
    · split at hms
      · cases hms
        cases hm
      · obtain ⟨kv, _, hkv⟩ := exceptMapM_ok_mem _ _ ms hms m hm
        exact createAntigravityModelEntry_mirror kv.1 kv.2 m hkv
  · intro b hb
    simp only [parseGeminiCliQuota] at hb
    split at hb
    · split at hb
      · obtain ⟨v, _, hv⟩ := List.mem_filterMap.mp hb
        exact parseGeminiCliBucket_mirror v b hv
      · cases hb
    · cases hb

/-- Witness for C7 on a concrete payload containing one model entry
without quota info and one well-formed empty bucket. -/
theorem parsers_pct_mirrors_fraction_witness :
    parseAntigravityModels
      (.obj [("models", .obj [("m", .obj [])]),
             ("buckets", .arr [.obj []])]) =
      .ok [{ model := "m", remaining_fraction := none,
             remaining_pct := none, reset_time := none }] ∧
    ({ model := "m", remaining_fraction := none, remaining_pct := none,
       reset_time := none } : AntigravityModel).remaining_pct =
      ({ model := "m", remaining_fraction := none, remaining_pct := none,
         reset_time := none } : AntigravityModel).remaining_fraction.map
        (fun q => round (q * 100)) ∧
    ({ model := "unknown", token_type := none, remaining_fraction := none,
       remaining_pct := none, remaining_amount := none,
       reset_time := none } : GeminiCliBucket).remaining_pct =
      ({ model := "unknown", token_type := none, remaining_fraction := none,
         remaining_pct := none, remaining_amount := none,
         reset_time := none } : GeminiCliBucket).remaining_fraction.map
        (fun q => round (q * 100)) := by
  have h := parsers_pct_mirrors_fraction
    (.obj [("models", .obj [("m", .obj [])]), ("buckets", .arr [.obj []])])
  refine ⟨rfl, ?_, ?_⟩
  · exact h.1 _ rfl _ (List.mem_singleton.mpr rfl)
  · exact h.2 _ (by rw [show parseGeminiCliQuota
      (.obj [("models", .obj [("m", .obj [])]), ("buckets", .arr [.obj []])]) =
      [{ model := "unknown", token_type := none, remaining_fraction := none,
         remaining_pct := none, remaining_amount := none,
         reset_time := none }] from rfl]; exact List.mem_singleton.mpr rfl)

/-- C8 counterexample: a message carrying `id: null` is NOT treated as
a notification — the dispatcher only tests `msg.id === undefined`, so a
`ping` with `id: null` produces a response envelope echoing `null`. -/
theorem handleMessage_null_id_responds :
    handleMessage (fun _ _ => .ok .undefined)
      { id := .null, method := "ping", params := .undefined } =
      some (.response .null (.obj [])) := rfl

/-- C8 (amended): the dispatcher's response discipline is determined by
the `id` field alone, with only an absent (`undefined`) id making a
notification: such a message produces no envelope regardless of method
validity or handler outcome, while a message carrying any id — `null`
included — produces exactly one envelope whose id echoes the request's
id exactly. -/
theorem handleMessage_id_discipline
    (exec : JVal → JVal → Except String JVal) (msg : JsonRpcRequest) :
    (handleMessage exec msg = none ↔ msg.id = .undefined) ∧
    (∀ envl, handleMessage exec msg = some envl →
      envelopeId envl = msg.id) := by
  cases hid : msg.id.isUndefined
  · constructor
    · simp only [handleMessage, hid, Bool.false_eq_true, if_false]
      constructor
      · intro h
        cases h
      · intro h
        exact absurd ((JVal.isUndefined_eq_true_iff msg.id).mpr h) (by simp [hid])
    · intro envl h
      simp only [handleMessage, hid, Bool.false_eq_true, if_false] at h
      injection h with h
      subst h
      repeat' split
      all_goals rfl
  · have hu : msg.id = .undefined := (JVal.isUndefined_eq_true_iff msg.id).mp hid
    constructor
    · simp [handleMessage, hid, hu]
    · intro envl h
      simp [handleMessage, hid] at h

/-- Witness for C8 (amended): an absent id yields no envelope; a `ping`
with id `7` yields the response envelope echoing `7`. -/
theorem handleMessage_id_discipline_witness :
    handleMessage (fun _ _ => .ok .undefined)
      { id := .undefined, method := "ping", params := .undefined } = none ∧
    envelopeId (.response (.num 7) (.obj [])) = JVal.num 7 := by
  constructor
  · exact (handleMessage_id_discipline (fun _ _ => .ok .undefined)
      { id := .undefined, method := "ping", params := .undefined }).1.mpr rfl
  · exact (handleMessage_id_discipline (fun _ _ => .ok .undefined)
      { id := .num 7, method := "ping", params := .undefined }).2
      (.response (.num 7) (.obj [])) rfl

theorem loopStep_inv (s : LoopState) (e : LoopEvent) (h : loopInv s) :
    loopInv (loopStep s e) := by
  obtain ⟨h1, h2⟩ := h
  cases e with
  | blankLine => exact ⟨h1, h2⟩
  | badLine =>
      simp only [loopStep]
      split
      · exact ⟨h1, h2⟩
      · exact ⟨h1, h2⟩
  | lineArrive =>
      simp only [loopStep]
      split
      · exact ⟨h1, h2⟩
      · rename_i hg
        have hex : s.exited = false := by
          cases hx : s.exited
          · rfl
          · exact absurd (by simp [hx]) hg
        have hcl : s.closed = false := by
          cases hx : s.closed
          · rfl
          · exact absurd (by simp [hx]) hg
        refine ⟨?_, ?_⟩
        · dsimp only
          omega
        · dsimp only
          simp [hex, hcl]
  | complete wrote =>
      simp only [loopStep]
      split
      · exact ⟨h1, h2⟩
      · rename_i hg
        have hex : s.exited = false := by
          cases hx : s.exited
          · rfl
          · exact absurd (by simp [hx]) hg
        have hp : s.pending ≠ 0 := fun hc => hg (by simp [hc])
        simp only [checkExit]
        split
        · rename_i hcond
          refine ⟨?_, ?_⟩
          · dsimp only
            omega
          · dsimp only
            simp [hcond.1, hcond.2]
        · rename_i hcond
          refine ⟨?_, ?_⟩
          · dsimp only
            omega
          · dsimp only
            rw [hex]
            cases hc : s.closed
            · simp
            · have hnz : ¬(s.pending - 1 = 0) := fun hz =>
                hcond ⟨by rw [hc], hz⟩
              simp [hnz]
  | closeInput =>
      simp only [loopStep]
      split
      · exact ⟨h1, h2⟩
      · rename_i hg
        have hex : s.exited = false := by
          cases hx : s.exited
          · rfl
          · exact absurd (by simp [hx]) hg
        simp only [checkExit]
        split
        · rename_i hcond
          refine ⟨h1, ?_⟩
          dsimp only
          simp [hcond.2]
        · rename_i hcond
          have hnz : ¬(s.pending = 0) := fun hz => hcond ⟨by trivial, hz⟩
          refine ⟨h1, ?_⟩
          dsimp only
          simp [hex, hnz]

theorem runLoop_inv (events : List LoopEvent) : loopInv (runLoop events) := by
  suffices h : ∀ s, loopInv s → loopInv (events.foldl loopStep s) by
    exact h initLoopState (by constructor <;> rfl)
  induction events with
  | nil => intro s hs; exact hs
  | cons e es ih => intro s hs; exact ih (loopStep s e) (loopStep_inv s e hs)

/-- C9: In every reachable state of the transport loop, the process
has performed its clean exit exactly when the input stream has closed
and the in-flight request count is zero (the condition being checked
after each request completes and immediately upon the close signal);
when exited, every started dispatch has finished — its response written
within the completion step, before the exit check — and closing the
input stream while a request is still in flight does not terminate the
process. -/
theorem transport_exit_discipline (events : List LoopEvent) :
    ((runLoop events).exited =
      ((runLoop events).closed && decide ((runLoop events).pending = 0))) ∧
    ((runLoop events).exited = true →
      (runLoop events).finished = (runLoop events).started) ∧
    (0 < (runLoop events).pending →
      (loopStep (runLoop events) .closeInput).exited = false) := by
  obtain ⟨h1, h2⟩ := runLoop_inv events
  refine ⟨h2, ?_, ?_⟩
  · intro hex
    rw [hex] at h2
    have hp : (runLoop events).pending = 0 := by
      cases hc : (runLoop events).closed <;> rw [hc] at h2 <;> simp_all
    omega
  · intro hp
    have hne : (runLoop events).exited = false := by
      rw [h2]
      simp [Nat.pos_iff_ne_zero.mp hp]
    have h3 := loopStep_inv (runLoop events) .closeInput ⟨h1, h2⟩
    simp only [loopStep, checkExit] at *
    split
    · exact hne
    · split <;> simp_all

/-- Witness for C9: after closing an idle loop every started dispatch
has finished, and a close delivered while one request is in flight does
not exit the process. -/
theorem transport_exit_discipline_witness :
    (runLoop [.closeInput]).finished = (runLoop [.closeInput]).started ∧
    (loopStep (runLoop [.lineArrive]) .closeInput).exited = false := by
  constructor
  · exact (transport_exit_discipline [.closeInput]).2.1 rfl
  · exact (transport_exit_discipline [.lineArrive]).2.2 (by decide)
